import Mathlib

/-!
Verification of the azure-architecture-map interaction core.

This file gives a shallow embedding, in Lean 4, of the program logic of
`src/utils/helpers.py` and `src/callbacks.py`:

* `lighten_color` — the hex-color lightening helper (including a model of
  Python's `int(s, 16)` parser and of the `'{0:02X}'` formatter);
* `perform_fuzzy_search` — the case-insensitive substring matcher;
* `load_graph_elements` — the graph-document builder;
* `save_graph_state` / `load_graph_state` — the single-slot snapshot store
  (the SQLite table is modelled as the list of its rows, each row a JSON
  value; the `json.dumps`/`json.loads` string step is taken as the exact
  inverse pair it is for the values produced here);
* `handle_interactions` — the interaction reducer, modelled as a pure
  function of its inputs plus an explicit environment (the result of the
  snapshot-store `load`, the success bit of `save`); Python exceptions that
  can escape are made explicit in the result type, and the snapshot-store
  call made by a dispatch is reported as an explicit effect.

Modelling conventions:

* Python strings are `String`; string slicing/`len` work on the code-point
  list `String.data`.
* Python dictionaries holding the fixed keys used by the code become
  structures whose fields are `Option`-valued; a `none` field models both
  the absent key and (where the code stores it) an explicit `None` value.
* Python floats are modelled as `ℚ`; every arithmetic the code performs on
  them (±0.2, clamping, channel mixing) is exact on the values involved.
* Python `int(x)` truncation toward zero is `pyTrunc`.
-/

namespace AzureMap

/-! ## Characters and Python `int(s, 16)` -/

/-- The characters Python's `int(_, 16)` accepts as hexadecimal digits:
the ten digits, then the lowercase and the uppercase letter digits. -/
def hexDigitChars : List Char :=
  ((List.range 10).map fun n => Char.ofNat (48 + n)) ++
    ((List.range 6).map fun n => Char.ofNat (97 + n)) ++
    ((List.range 6).map fun n => Char.ofNat (65 + n))

/-- The characters of a 6-digit uppercase hex color body. -/
def upperHexChars : List Char :=
  ((List.range 10).map fun n => Char.ofNat (48 + n)) ++
    ((List.range 6).map fun n => Char.ofNat (65 + n))

def isHexDig (c : Char) : Bool := hexDigitChars.any (fun d => d == c)

/-- Numeric value of a hex digit character (0 for non-digits). -/
def hexVal (c : Char) : Nat :=
  if '0' ≤ c ∧ c ≤ '9' then c.toNat - 48
  else if 'a' ≤ c ∧ c ≤ 'f' then c.toNat - 87
  else if 'A' ≤ c ∧ c ≤ 'F' then c.toNat - 55
  else 0

/-- Whitespace stripped by Python's `int` (the ASCII part of `str.strip`). -/
def isPySpace (c : Char) : Bool :=
  c == ' ' || c == '\t' || c == '\n' || c == '\r' || c == '\x0b' || c == '\x0c'

/-- Digit-run validity for Python `int(_, 16)`: nonempty, hex digits with
underscores only between digits (a single leading underscore is allowed
directly after a `0x` prefix), never trailing, never doubled. -/
def hexRunValid (allowLeadUnderscore : Bool) (l : List Char) : Bool :=
  (!l.isEmpty) &&
  (l.all (fun c => isHexDig c || c == '_')) &&
  (match l.head? with
   | some c => (c != '_') || allowLeadUnderscore
   | none => false) &&
  (match l.getLast? with
   | some c => c != '_'
   | none => false) &&
  (match l with
   | [] => true
   | _ :: t => (l.zip t).all (fun p => !(p.1 == '_' && p.2 == '_')))

/-- Value of a validated digit run (underscores skipped). -/
def hexRunVal (l : List Char) : Nat :=
  l.foldl (fun acc c => if c == '_' then acc else acc * 16 + hexVal c) 0

/-- The digit part of `int(s, 16)` after sign handling: optional `0x`/`0X`
base marker, then a valid digit run. -/
def pyIntHexBody (l : List Char) : Option Nat :=
  match l with
  | '0' :: 'x' :: rest => if hexRunValid true rest then some (hexRunVal rest) else none
  | '0' :: 'X' :: rest => if hexRunValid true rest then some (hexRunVal rest) else none
  | _ => if hexRunValid false l then some (hexRunVal l) else none

/-- Model of Python `int(s, 16)`: surrounding whitespace stripped, an
optional single sign, base marker, digits; `none` models `ValueError`. -/
def pyIntHex (l : List Char) : Option Int :=
  let t := (l.dropWhile isPySpace).reverse.dropWhile isPySpace |>.reverse
  match t with
  | '+' :: r => (pyIntHexBody r).map (fun n => (n : Int))
  | '-' :: r => (pyIntHexBody r).map (fun n => -(n : Int))
  | r => (pyIntHexBody r).map (fun n => (n : Int))

/-- Python `int(x)` on a number: truncation toward zero. -/
def pyTrunc (q : ℚ) : Int := if 0 ≤ q then ⌊q⌋ else ⌈q⌉

/-- Uppercase hex digits of `n`, most significant first (`['0']` for 0),
as produced by Python's `'{0:X}'`. -/
def natHexDigits (n : Nat) : List Char :=
  (Nat.toDigits 16 n).map (fun c => c.toUpper)

/-- Python `'{0:02X}'.format(n)`: zero-pad the digits to width 2; a negative
value keeps its sign in front of the (already wide enough) magnitude. -/
def hexFmt2 (n : Int) : List Char :=
  if n < 0 then '-' :: natHexDigits n.natAbs
  else
    let d := natHexDigits n.natAbs
    if d.length < 2 then List.replicate (2 - d.length) '0' ++ d else d

/-! ## `lighten_color` (src/utils/helpers.py, lines 201–235) -/

/-- Python list slice `l[a:b]` (clamping semantics). -/
def pySlice (l : List Char) (a b : Nat) : List Char := (l.drop a).take (b - a)

/-- The preprocessing the code applies before parsing: strip every leading
`#`, then double each character of a 3-character shorthand.  The `except`
clause of `lighten_color` returns the *preprocessed* local variable. -/
def lightenPre (hex_color : String) : List Char :=
  let l := hex_color.data.dropWhile (fun c => c == '#')
  if l.length = 3 then l.flatMap (fun c => [c, c]) else l

/-- One channel: `int(c + (255 - c) * factor)` re-encoded as 2-digit hex. -/
def lightenChannel (c : Int) (factor : ℚ) : List Char :=
  hexFmt2 (pyTrunc ((c : ℚ) + ((255 : ℚ) - (c : ℚ)) * factor))

/-- `lighten_color` from `src/utils/helpers.py`.  The `try` body parses the
three channel slices with `int(_, 16)`; any parse failure lands in the
`except` clause, which returns the preprocessed string (the local
`hex_color`, already `#`-stripped and shorthand-expanded). -/
def lighten_color (hex_color : String) (factor : ℚ) : String :=
  match pyIntHex (pySlice (lightenPre hex_color) 0 2),
        pyIntHex (pySlice (lightenPre hex_color) 2 4),
        pyIntHex (pySlice (lightenPre hex_color) 4 6) with
  | some r, some g, some b =>
      String.mk ('#' :: (lightenChannel r factor ++ lightenChannel g factor ++ lightenChannel b factor))
  | _, _, _ => String.mk (lightenPre hex_color)

/-- A valid 6-digit hex color with a single `#` in front. -/
def ValidHex6 (s : String) : Prop :=
  ∃ l : List Char, s.data = '#' :: l ∧ l.length = 6 ∧ ∀ c ∈ l, c ∈ hexDigitChars

/-- A valid 6-digit hex color written with uppercase digits. -/
def ValidUpperHex6 (s : String) : Prop :=
  ∃ l : List Char, s.data = '#' :: l ∧ l.length = 6 ∧ ∀ c ∈ l, c ∈ upperHexChars

/-! ### Hex facts, by enumeration of the digit alphabet -/

/-- Enumeration of the 22 hex digit characters. -/
def hchar (a : Fin 22) : Char := hexDigitChars.get (Fin.cast (by decide) a)

/-- `Int`-valued contents of a two-hex-digit slice. -/
def pairVal (a b : Fin 22) : Int := 16 * (hexVal (hchar a) : Int) + (hexVal (hchar b) : Int)

theorem exists_hchar {c : Char} (h : c ∈ hexDigitChars) : ∃ a : Fin 22, hchar a = c := by
  obtain ⟨n, hn⟩ := List.get_of_mem h
  exact ⟨Fin.cast (by decide) n, hn⟩

theorem hexPair_parse (a b : Fin 22) : pyIntHex [hchar a, hchar b] = some (pairVal a b) := by
  revert a b; decide

theorem hexPair_fmt (a b : Fin 22) :
    hexFmt2 (pairVal a b) = [(hchar a).toUpper, (hchar b).toUpper] := by
  revert a b; decide

theorem upper_mem_hex {c : Char} (h : c ∈ upperHexChars) : c ∈ hexDigitChars := by
  have hall : ∀ x ∈ upperHexChars, x ∈ hexDigitChars := by decide
  exact hall c h

theorem upper_toUpper {c : Char} (h : c ∈ upperHexChars) : c.toUpper = c := by
  have hall : ∀ x ∈ upperHexChars, x.toUpper = x := by decide
  exact hall c h

theorem hex_ne_hash {c : Char} (h : c ∈ hexDigitChars) : (c == '#') = false := by
  have hall : ∀ x ∈ hexDigitChars, (x == '#') = false := by decide
  exact hall c h

theorem pyTrunc_intCast (n : Int) : pyTrunc (n : ℚ) = n := by
  unfold pyTrunc; split <;> simp

theorem lightenChannel_zero (c : Int) : lightenChannel c 0 = hexFmt2 c := by
  unfold lightenChannel
  rw [mul_zero, add_zero, pyTrunc_intCast]

theorem lightenChannel_one (c : Int) : lightenChannel c 1 = ['F', 'F'] := by
  unfold lightenChannel
  rw [mul_one, show (c : ℚ) + ((255 : ℚ) - (c : ℚ)) = ((255 : Int) : ℚ) by push_cast; ring,
    pyTrunc_intCast]
  decide

theorem list_six {l : List Char} (h : l.length = 6) :
    ∃ c1 c2 c3 c4 c5 c6, l = [c1, c2, c3, c4, c5, c6] := by
  match l, h with
  | [c1, c2, c3, c4, c5, c6], _ => exact ⟨c1, c2, c3, c4, c5, c6, rfl⟩

theorem lightenPre_valid {s : String} {l : List Char} (hd : s.data = '#' :: l)
    (hlen : l.length = 6) (hmem : ∀ c ∈ l, c ∈ hexDigitChars) : lightenPre s = l := by
  unfold lightenPre
  rw [hd]
  obtain ⟨c1, c2, c3, c4, c5, c6, rfl⟩ := list_six hlen
  have h1 := hex_ne_hash (hmem c1 (by simp))
  simp [List.dropWhile, h1]

/-- Core of the factor-0 behavior: on a valid 6-hex-digit body the result is
the `#`-prefixed uppercase rendering of the same digits. -/
theorem lighten_zero_upper {s : String} {l : List Char} (hd : s.data = '#' :: l)
    (hlen : l.length = 6) (hmem : ∀ c ∈ l, c ∈ hexDigitChars) :
    lighten_color s 0 = String.mk ('#' :: l.map Char.toUpper) := by
  obtain ⟨c1, c2, c3, c4, c5, c6, rfl⟩ := list_six hlen
  obtain ⟨a1, ha1⟩ := exists_hchar (hmem c1 (by simp))
  obtain ⟨a2, ha2⟩ := exists_hchar (hmem c2 (by simp))
  obtain ⟨a3, ha3⟩ := exists_hchar (hmem c3 (by simp))
  obtain ⟨a4, ha4⟩ := exists_hchar (hmem c4 (by simp))
  obtain ⟨a5, ha5⟩ := exists_hchar (hmem c5 (by simp))
  obtain ⟨a6, ha6⟩ := exists_hchar (hmem c6 (by simp))
  unfold lighten_color
  subst ha1 ha2 ha3 ha4 ha5 ha6
  rw [lightenPre_valid hd rfl hmem]
  rw [show pySlice [hchar a1, hchar a2, hchar a3, hchar a4, hchar a5, hchar a6] 0 2
        = [hchar a1, hchar a2] from rfl,
      show pySlice [hchar a1, hchar a2, hchar a3, hchar a4, hchar a5, hchar a6] 2 4
        = [hchar a3, hchar a4] from rfl,
      show pySlice [hchar a1, hchar a2, hchar a3, hchar a4, hchar a5, hchar a6] 4 6
        = [hchar a5, hchar a6] from rfl,
      hexPair_parse, hexPair_parse, hexPair_parse]
  simp only [lightenChannel_zero, hexPair_fmt]
  rfl

theorem lighten_one_white {s : String} {l : List Char} (hd : s.data = '#' :: l)
    (hlen : l.length = 6) (hmem : ∀ c ∈ l, c ∈ hexDigitChars) :
    lighten_color s 1 = "#FFFFFF" := by
  obtain ⟨c1, c2, c3, c4, c5, c6, rfl⟩ := list_six hlen
  obtain ⟨a1, ha1⟩ := exists_hchar (hmem c1 (by simp))
  obtain ⟨a2, ha2⟩ := exists_hchar (hmem c2 (by simp))
  obtain ⟨a3, ha3⟩ := exists_hchar (hmem c3 (by simp))
  obtain ⟨a4, ha4⟩ := exists_hchar (hmem c4 (by simp))
  obtain ⟨a5, ha5⟩ := exists_hchar (hmem c5 (by simp))
  obtain ⟨a6, ha6⟩ := exists_hchar (hmem c6 (by simp))
  unfold lighten_color
  subst ha1 ha2 ha3 ha4 ha5 ha6
  rw [lightenPre_valid hd rfl hmem]
  rw [show pySlice [hchar a1, hchar a2, hchar a3, hchar a4, hchar a5, hchar a6] 0 2
        = [hchar a1, hchar a2] from rfl,
      show pySlice [hchar a1, hchar a2, hchar a3, hchar a4, hchar a5, hchar a6] 2 4
        = [hchar a3, hchar a4] from rfl,
      show pySlice [hchar a1, hchar a2, hchar a3, hchar a4, hchar a5, hchar a6] 4 6
        = [hchar a5, hchar a6] from rfl,
      hexPair_parse, hexPair_parse, hexPair_parse]
  simp only [lightenChannel_one]
  rfl

theorem string_mk_data (s : String) : String.mk s.data = s := rfl

/-- C2 — counterexample.  The claim demands that on a malformed hex color the
observable result is the original input string, unchanged character for
character.  On the malformed input `"#GGGGGG"` (right length, non-hex
characters) the code returns `"GGGGGG"`: the `except` clause of
`lighten_color` returns the local variable after `lstrip('#')`, so the
leading `#` is lost. -/
theorem claim_C2_counterexample :
    lighten_color "#GGGGGG" (1/2) = "GGGGGG" ∧
      lighten_color "#GGGGGG" (1/2) ≠ "#GGGGGG" := by
  constructor <;> decide

/-- C2 (amended) — for every input string and every factor, when hex-digit
parsing of any of the three channel slices fails, `lighten_color` returns
normally with the *preprocessed* input: the input with every leading `#`
stripped and, if 3 characters then remain, each character doubled.  This is
the original input itself only when the input had no `#` prefix and was not
of length 3 after stripping. -/
theorem claim_C2 (s : String) (f : ℚ)
    (h : pyIntHex (pySlice (lightenPre s) 0 2) = none ∨
         pyIntHex (pySlice (lightenPre s) 2 4) = none ∨
         pyIntHex (pySlice (lightenPre s) 4 6) = none) :
    lighten_color s f = String.mk (lightenPre s) := by
  unfold lighten_color
  rcases h1 : pyIntHex (pySlice (lightenPre s) 0 2) with _ | r <;>
    rcases h2 : pyIntHex (pySlice (lightenPre s) 2 4) with _ | g <;>
      rcases h3 : pyIntHex (pySlice (lightenPre s) 4 6) with _ | b <;>
        simp_all

/-- C2 — witness for the amended theorem at the concrete malformed input
`"#GGGGGG"` with factor 1/2. -/
theorem claim_C2_witness :
    (pyIntHex (pySlice (lightenPre "#GGGGGG") 0 2) = none ∨
     pyIntHex (pySlice (lightenPre "#GGGGGG") 2 4) = none ∨
     pyIntHex (pySlice (lightenPre "#GGGGGG") 4 6) = none) ∧
      lighten_color "#GGGGGG" (1/2) = String.mk (lightenPre "#GGGGGG") :=
  ⟨Or.inl (by decide), claim_C2 "#GGGGGG" (1/2) (Or.inl (by decide))⟩

/-- C3 — counterexample.  The claim demands `lighten(c, 0) = c` for every
valid 6-digit hex color; on the lowercase valid color `"#1f77b4"` the code
returns `"#1F77B4"` (the formatter `'{0:02X}'` re-encodes in uppercase), so
factor 0 is not the identity on lowercase-written colors. -/
theorem claim_C3_counterexample :
    lighten_color "#1f77b4" 0 = "#1F77B4" ∧
      lighten_color "#1f77b4" 0 ≠ "#1f77b4" := by
  have h := lighten_zero_upper (s := "#1f77b4")
    (l := ['1', 'f', '7', '7', 'b', '4']) rfl rfl (by decide)
  constructor
  · rw [h]; decide
  · rw [h]; decide

/-- C3 (amended) — factor 0 is the identity for every valid 6-digit hex
color written as `#` followed by six *uppercase* hex digits (in general it
returns the uppercase re-encoding of the color); factor 1 yields the white
`"#FFFFFF"` for every valid 6-digit hex color, of either case. -/
theorem claim_C3 :
    (∀ s : String, ValidUpperHex6 s → lighten_color s 0 = s) ∧
      (∀ s : String, ValidHex6 s → lighten_color s 1 = "#FFFFFF") := by
  constructor
  · rintro s ⟨l, hd, hlen, hmem⟩
    have hmem' : ∀ c ∈ l, c ∈ hexDigitChars := fun c hc => upper_mem_hex (hmem c hc)
    rw [lighten_zero_upper hd hlen hmem']
    have hmap : l.map Char.toUpper = l := by
      rw [List.map_congr_left (fun c hc => upper_toUpper (hmem c hc))]
      exact List.map_id l
    rw [hmap, ← hd, string_mk_data]
  · rintro s ⟨l, hd, hlen, hmem⟩
    exact lighten_one_white hd hlen hmem

/-- C3 — witness: factor 0 fixes the uppercase color `"#1F77B4"` and factor
1 sends the lowercase color `"#1f77b4"` to white. -/
theorem claim_C3_witness :
    lighten_color "#1F77B4" 0 = "#1F77B4" ∧ lighten_color "#1f77b4" 1 = "#FFFFFF" :=
  ⟨claim_C3.1 "#1F77B4" ⟨['1', 'F', '7', '7', 'B', '4'], rfl, rfl, by decide⟩,
   claim_C3.2 "#1f77b4" ⟨['1', 'f', '7', '7', 'b', '4'], rfl, rfl, by decide⟩⟩

/-! ## `perform_fuzzy_search` (src/utils/helpers.py, lines 173–199) -/

/-- Model of Python `str.lower()` (character-wise; the code applies it to
hex-free ASCII labels and queries, where `Char.toLower` agrees with it). -/
def pyLower (s : String) : String := String.mk (s.data.map Char.toLower)

/-- Python `a in b` on strings: substring containment. -/
def pyInStr (needle hay : String) : Bool := decide (needle.data <:+: hay.data)

/-- `perform_fuzzy_search` from `src/utils/helpers.py`: empty (falsy) query
returns `[]`; otherwise a case-insensitive substring filter over the
labels.  The `try`/`except` around the comprehension never fires for
string-typed labels, so it does not appear in the model. -/
def perform_fuzzy_search (search_value : String) (all_labels : List String) : List String :=
  if search_value = "" then []
  else all_labels.filter (fun label => pyInStr (pyLower search_value) (pyLower label))

theorem char_toNat_ofNat (n : Nat) (h : n.isValidChar) : (Char.ofNat n).toNat = n := by
  unfold Char.ofNat
  rw [dif_pos h]
  unfold Char.ofNatAux Char.toNat
  simp [UInt32.toNat, BitVec.toNat_ofNatLt]

theorem char_toLower_idem (c : Char) : Char.toLower (Char.toLower c) = Char.toLower c := by
  unfold Char.toLower
  by_cases h : c.toNat ≥ 65 ∧ c.toNat ≤ 90
  · rw [if_pos h]
    rw [char_toNat_ofNat _ (Or.inl (by omega))]
    rw [if_neg (by omega)]
  · rw [if_neg h, if_neg h]

theorem pyLower_idem (s : String) : pyLower (pyLower s) = pyLower s := by
  unfold pyLower
  rw [List.map_map]
  exact congrArg String.mk (List.map_congr_left fun c _ => char_toLower_idem c)

theorem pyLower_eq_empty_iff (s : String) : pyLower s = "" ↔ s = "" := by
  unfold pyLower
  constructor
  · intro h
    have : (s.data.map Char.toLower) = [] := congrArg String.data h
    rcases s with ⟨d⟩
    cases d with
    | nil => rfl
    | cons a t => simp at this
  · rintro rfl; rfl

/-- C6 — counterexample.  The claim asserts both that `match("", L)` is
empty and that `match(q, L)` is *exactly* the sublist of labels whose
lowercase form contains `lowercase(q)`; for `q = ""` every label contains
the empty substring, so on `L = ["a"]` the two demands disagree and the
code follows the first (returns `[]`, not `["a"]`). -/
theorem claim_C6_counterexample :
    perform_fuzzy_search "" ["a"] = [] ∧
      (["a"].filter (fun label => pyInStr (pyLower "") (pyLower label))) = ["a"] ∧
      perform_fuzzy_search "" ["a"] ≠
        ["a"].filter (fun label => pyInStr (pyLower "") (pyLower label)) := by
  refine ⟨rfl, by decide, by decide⟩

/-- C6 (amended) — `match("", L) = []`; `match(q, L) = match(lowercase(q), L)`
for every query; and for every *non-empty* query the result is exactly the
order-preserving sublist of the labels whose lowercase form contains the
lowercase query as a substring.  (For the empty query the exact-sublist
description is overridden by the deliberate empty-result rule; the result
is still an order-preserving sublist all of whose members match.) -/
theorem claim_C6 :
    (∀ L : List String, perform_fuzzy_search "" L = []) ∧
      (∀ (q : String) (L : List String),
        perform_fuzzy_search q L = perform_fuzzy_search (pyLower q) L) ∧
      (∀ (q : String) (L : List String), q ≠ "" →
        perform_fuzzy_search q L =
          L.filter (fun label => pyInStr (pyLower q) (pyLower label))) := by
  refine ⟨fun L => rfl, fun q L => ?_, fun q L hq => ?_⟩
  · unfold perform_fuzzy_search
    by_cases hq : q = ""
    · subst hq; rfl
    · rw [if_neg hq, if_neg (fun h => hq ((pyLower_eq_empty_iff q).mp h)), pyLower_idem]
  · unfold perform_fuzzy_search
    rw [if_neg hq]

/-- C6 — witness: query `"mach"` over `["Virtual Machines", "App Services"]`
selects exactly `["Virtual Machines"]` (case-insensitively).  Note that the
spec's own illustration query `"vm"` would select nothing: `"vm"` is not a
contiguous substring of `"virtual machines"`. -/
theorem claim_C6_witness :
    ("mach" ≠ "") ∧
      perform_fuzzy_search "mach" ["Virtual Machines", "App Services"] =
        (["Virtual Machines", "App Services"].filter
          (fun label => pyInStr (pyLower "mach") (pyLower label))) ∧
      perform_fuzzy_search "mach" ["Virtual Machines", "App Services"] = ["Virtual Machines"] :=
  ⟨by decide, claim_C6.2.2 "mach" ["Virtual Machines", "App Services"] (by decide), by decide⟩

/-! ## Graph elements

A Cytoscape element is a dictionary `{data: {...}, classes?: str}`.  The
`data` keys the code reads or writes are fixed (`id`, `label`,
`description`, `notes`, `color` for nodes; `id`, `source`, `target` for
edges), so an element is modelled as a structure of `Option`-valued fields;
a `none` field stands for an absent key (and, where the code stores it, an
explicit `None` value — the code never distinguishes the two, always going
through `.get` or writing before reading). -/

structure ElemData where
  id : Option String := none
  label : Option String := none
  description : Option String := none
  notes : Option String := none
  color : Option String := none
  source : Option String := none
  target : Option String := none
deriving DecidableEq, Repr

structure Elem where
  data : ElemData
  classes : Option String := none
deriving DecidableEq, Repr

/-! ## `load_graph_elements` (src/utils/helpers.py, lines 306–388) -/

/-- The fixed ten-color palette for primary nodes. -/
def PRIMARY_NODE_COLORS : List String :=
  ["#1f77b4", "#ff7f0e", "#2ca02c", "#d62728", "#9467bd",
   "#8c564b", "#e377c2", "#7f7f7f", "#bcbd22", "#17becf"]

/-- The central-node descriptor consumed by the builder (`central_node`
in `src/data.py` carries `id`, `label`, `description`; `notes` is read
with `.get('notes', '')`). -/
structure CentralNode where
  id : String
  label : String
  description : String
  notes : Option String := none

/-- Python `label.replace('_', ' ')` (single-character pattern). -/
def replaceUnderscore (s : String) : String :=
  String.mk (s.data.map (fun c => if c = '_' then ' ' else c))

def centralElem (central : CentralNode) : Elem :=
  { data := { id := some central.id, label := some (replaceUnderscore central.label),
              description := some central.description,
              notes := some (central.notes.getD ""), color := some "#87CEEB" },
    classes := some "central-node" }

def primaryElem (i : Nat) (pid desc : String) : Elem :=
  { data := { id := some pid, label := some (replaceUnderscore pid),
              description := some desc, notes := some "",
              color := some (PRIMARY_NODE_COLORS.getD (i % PRIMARY_NODE_COLORS.length) "") },
    classes := some "primary-node" }

def subElem (cid desc color : String) : Elem :=
  { data := { id := some cid, label := some (replaceUnderscore cid),
              description := some desc, notes := some "", color := some color },
    classes := some "subnode" }

def edgeElem (src tgt : String) : Elem :=
  { data := { id := some (src ++ "_to_" ++ tgt), source := some src, target := some tgt } }

/-- The subnode pass.  It threads the accumulated node list because each
parent's color is looked up in the nodes built *so far*
(`next(... for node in nodes ...)`, default `'#FFFFFF'`); children are
appended before the next mapping entry is processed.  Returns the final
node list and the subnode edges. -/
def addSubnodes (nodes : List Elem) :
    List (String × List (String × String)) → List Elem × List Elem
  | [] => (nodes, [])
  | (parent, children) :: rest =>
      let pcol := (((nodes.find? (fun n => n.data.id == some parent)).bind
        (fun n => n.data.color)).getD "#FFFFFF")
      let childNodes := children.map (fun c => subElem c.1 c.2 (lighten_color pcol (3/5)))
      let childEdges := children.map (fun c => edgeElem parent c.1)
      let res := addSubnodes (nodes ++ childNodes) rest
      (res.1, childEdges ++ res.2)

/-- `load_graph_elements` from `src/utils/helpers.py`.  Python dictionaries
(`primary_nodes`, `subnodes`, each children mapping) are passed as
association lists in their iteration order. -/
def load_graph_elements (central : CentralNode) (primary_nodes : List (String × String))
    (subnodes : List (String × List (String × String))) : List Elem :=
  let baseNodes := centralElem central ::
    primary_nodes.enum.map (fun p => primaryElem p.1 p.2.1 p.2.2)
  let primaryEdges := primary_nodes.map (fun p => edgeElem central.id p.1)
  let res := addSubnodes baseNodes subnodes
  res.1 ++ (primaryEdges ++ res.2)

/-! ### The document invariant of C5 -/

/-- Selector used to collect node ids: an element is a node when its data
carries neither `source` nor `target` (the discrimination the code itself
uses). -/
def nodeIdSel (e : Elem) : Option String :=
  if e.data.source = none ∧ e.data.target = none then e.data.id else none

def nodeIds (doc : List Elem) : List String := doc.filterMap nodeIdSel

/-- Every element carrying a `source` or `target` refers, on both endpoints,
to the id of some node of the document. -/
def EdgesClosed (doc : List Elem) : Prop :=
  ∀ e ∈ doc, (e.data.source ≠ none ∨ e.data.target ≠ none) →
    e.data.source ∈ (nodeIds doc).map some ∧ e.data.target ∈ (nodeIds doc).map some

instance : DecidablePred EdgesClosed := fun doc => by
  unfold EdgesClosed; infer_instance

def NodeIdsUnique (doc : List Elem) : Prop := (nodeIds doc).Nodup

instance : DecidablePred NodeIdsUnique := fun doc => by
  unfold NodeIdsUnique; infer_instance

/-- The ids of the subnode (child) entries of a taxonomy, in order. -/
def childIds (subnodes : List (String × List (String × String))) : List String :=
  subnodes.flatMap (fun pc => pc.2.map Prod.fst)

theorem addSubnodes_snd (subs : List (String × List (String × String))) :
    ∀ nodes, (addSubnodes nodes subs).2 =
      subs.flatMap (fun pc => pc.2.map (fun c => edgeElem pc.1 c.1)) := by
  induction subs with
  | nil => intro nodes; rfl
  | cons pc rest ih =>
      intro nodes
      rcases pc with ⟨parent, children⟩
      simp only [addSubnodes, ih, List.flatMap_cons]

theorem filterMap_none_of_all {l : List Elem}
    (h : ∀ e ∈ l, nodeIdSel e = none) : l.filterMap nodeIdSel = [] := by
  induction l with
  | nil => rfl
  | cons a t ih =>
      simp only [List.filterMap_cons, h a (by simp)]
      exact ih (fun e he => h e (by simp [he]))

theorem filterMap_some_fun {α β : Type} (g : α → β) (l : List α) :
    l.filterMap (fun a => some (g a)) = l.map g := by
  induction l <;> simp [*]

theorem childNodes_ids (children : List (String × String)) (col : String) :
    (children.map (fun c => subElem c.1 c.2 col)).filterMap nodeIdSel =
      children.map Prod.fst := by
  induction children with
  | nil => rfl
  | cons c t ih =>
      rw [List.map_cons,
        List.filterMap_cons_some (h := show nodeIdSel (subElem c.1 c.2 col) = some c.1 from rfl),
        ih, List.map_cons]

theorem addSubnodes_fst_ids (subs : List (String × List (String × String))) :
    ∀ nodes, (addSubnodes nodes subs).1.filterMap nodeIdSel =
      nodes.filterMap nodeIdSel ++ childIds subs := by
  induction subs with
  | nil => intro nodes; simp [addSubnodes, childIds]
  | cons pc rest ih =>
      intro nodes
      rcases pc with ⟨parent, children⟩
      simp only [addSubnodes, ih, List.filterMap_append, childIds, List.flatMap_cons]
      rw [childNodes_ids]
      simp [childIds, List.append_assoc]

theorem addSubnodes_fst_nodes (subs : List (String × List (String × String))) :
    ∀ nodes, (∀ e ∈ nodes, e.data.source = none ∧ e.data.target = none) →
      ∀ e ∈ (addSubnodes nodes subs).1, e.data.source = none ∧ e.data.target = none := by
  induction subs with
  | nil => intro nodes h e he; exact h e he
  | cons pc rest ih =>
      intro nodes h e he
      rcases pc with ⟨parent, children⟩
      refine ih _ (fun x hx => ?_) e he
      rcases List.mem_append.mp hx with hx | hx
      · exact h x hx
      · obtain ⟨c, -, rfl⟩ := List.mem_map.mp hx
        exact ⟨rfl, rfl⟩

theorem baseNodes_ids (central : CentralNode) (ps : List (String × String)) :
    List.filterMap nodeIdSel
        (centralElem central :: ps.enum.map (fun p => primaryElem p.1 p.2.1 p.2.2)) =
      central.id :: ps.map Prod.fst := by
  rw [List.filterMap_cons_some (h := show nodeIdSel (centralElem central)
      = some central.id from rfl)]
  rw [List.filterMap_map]
  rw [show (nodeIdSel ∘ fun p : Nat × (String × String) => primaryElem p.1 p.2.1 p.2.2)
      = (fun p : Nat × (String × String) => some p.2.1) from rfl]
  rw [filterMap_some_fun]
  rw [show (fun p : Nat × (String × String) => p.2.1) = Prod.fst ∘ Prod.snd from rfl,
    ← List.map_map, List.enum_map_snd]

theorem nodeIds_load (central : CentralNode) (ps : List (String × String))
    (subs : List (String × List (String × String))) :
    nodeIds (load_graph_elements central ps subs) =
      central.id :: (ps.map Prod.fst ++ childIds subs) := by
  unfold load_graph_elements nodeIds
  simp only [List.filterMap_append]
  rw [addSubnodes_fst_ids]
  rw [filterMap_none_of_all (l := ps.map (fun p => edgeElem central.id p.1)) ?h1]
  case h1 =>
    intro e he
    obtain ⟨p, -, rfl⟩ := List.mem_map.mp he
    rfl
  rw [filterMap_none_of_all (l := (addSubnodes _ subs).2) ?h2]
  case h2 =>
    intro e he
    rw [addSubnodes_snd] at he
    obtain ⟨pc, -, he⟩ := List.mem_flatMap.mp he
    obtain ⟨c, -, rfl⟩ := List.mem_map.mp he
    rfl
  rw [baseNodes_ids]
  simp

/-- C5 — counterexample.  The claim asserts the closure/uniqueness invariant
for *every* taxonomy input.  With the (dictionary-legal) input whose
subnodes mapping keys `"ghost"` — a parent id that is neither the central
node nor any primary category — the builder still emits the edge
`ghost → s`, whose source references no node of the document. -/
theorem claim_C5_counterexample :
    ¬ EdgesClosed (load_graph_elements ⟨"c", "c", "d", none⟩ [] [("ghost", [("s", "d")])]) := by
  decide

/-- C5 (amended) — for every taxonomy input in which the central id, the
primary-category ids and the subcategory ids are pairwise distinct, and
every subnodes key is one of the primary-category ids, the built document
satisfies the invariant: every edge's source and target equal the id of
some node of the document, and node ids are unique across the document. -/
theorem claim_C5 (central : CentralNode) (ps : List (String × String))
    (subs : List (String × List (String × String)))
    (hdistinct : (central.id :: (ps.map Prod.fst ++ childIds subs)).Nodup)
    (hparents : ∀ pc ∈ subs, pc.1 ∈ ps.map Prod.fst) :
    EdgesClosed (load_graph_elements central ps subs) ∧
      NodeIdsUnique (load_graph_elements central ps subs) := by
  have hids := nodeIds_load central ps subs
  constructor
  · intro e he hcond
    unfold load_graph_elements at he
    rcases List.mem_append.mp he with he | he
    · exfalso
      have hbase : ∀ x ∈ centralElem central ::
          ps.enum.map (fun p => primaryElem p.1 p.2.1 p.2.2),
          x.data.source = none ∧ x.data.target = none := by
        intro x hx
        rcases List.mem_cons.mp hx with rfl | hx
        · exact ⟨rfl, rfl⟩
        · obtain ⟨p, -, rfl⟩ := List.mem_map.mp hx
          exact ⟨rfl, rfl⟩
      have := addSubnodes_fst_nodes subs _ hbase e he
      rcases hcond with hc | hc <;> [exact hc this.1; exact hc this.2]
    · rw [hids]
      rcases List.mem_append.mp he with he | he
      · obtain ⟨p, hp, rfl⟩ := List.mem_map.mp he
        constructor
        · exact List.mem_map.mpr ⟨central.id, by simp, rfl⟩
        · exact List.mem_map.mpr ⟨p.1, by
            simp only [List.mem_cons, List.mem_append]
            exact Or.inr (Or.inl (List.mem_map.mpr ⟨p, hp, rfl⟩)), rfl⟩
      · rw [addSubnodes_snd] at he
        obtain ⟨pc, hpc, he⟩ := List.mem_flatMap.mp he
        obtain ⟨c, hc, rfl⟩ := List.mem_map.mp he
        constructor
        · exact List.mem_map.mpr ⟨pc.1, by
            simp only [List.mem_cons, List.mem_append]
            exact Or.inr (Or.inl (hparents pc hpc)), rfl⟩
        · exact List.mem_map.mpr ⟨c.1, by
            simp only [List.mem_cons, List.mem_append]
            exact Or.inr (Or.inr (List.mem_flatMap.mpr
              ⟨pc, hpc, List.mem_map.mpr ⟨c, hc, rfl⟩⟩)), rfl⟩
  · unfold NodeIdsUnique
    rw [hids]
    exact hdistinct

/-- C5W — witness at the spec's own scenario taxonomy: one category
`Compute` with subcategory `Functions`. -/
theorem claim_C5_witness :
    ((("Azure" : String) :: ((["Compute"] : List String) ++ ["Functions"])).Nodup ∧
      ∀ pc ∈ [("Compute", [("Functions", "d")])], pc.1 ∈ ["Compute"]) ∧
      (EdgesClosed (load_graph_elements ⟨"Azure", "Azure", "d", none⟩ [("Compute", "d")]
          [("Compute", [("Functions", "d")])]) ∧
        NodeIdsUnique (load_graph_elements ⟨"Azure", "Azure", "d", none⟩ [("Compute", "d")]
          [("Compute", [("Functions", "d")])])) :=
  ⟨⟨by decide, by decide⟩,
    claim_C5 ⟨"Azure", "Azure", "d", none⟩ [("Compute", "d")]
      [("Compute", [("Functions", "d")])] (by decide) (by decide)⟩

/-! ## Snapshot store (src/utils/helpers.py, lines 241–300)

The SQLite table `graph_state` is modelled as the list of its rows in
insertion order; each row holds the JSON value whose serialization the code
stores (`json.dumps`/`json.loads` are exact inverses on the values produced
here, so the string step is elided).  Python's `None` dict values and
absent keys are both rendered as an explicit JSON null, consistent with the
`Option`-field modelling of elements. -/

inductive Json where
  | null
  | bool (b : Bool)
  | num (q : ℚ)
  | str (s : String)
  | arr (items : List Json)
  | obj (fields : List (String × Json))

structure Pan where
  x : ℚ
  y : ℚ
deriving DecidableEq, Repr

/-- The record the Save handler assembles: `{elements, zoom, pan}`. -/
structure Snapshot where
  elements : List Elem
  zoom : ℚ
  pan : Pan
deriving DecidableEq, Repr

/-- The decoded dictionary the Load handler receives: any of the three keys
may be missing (`state.get` defaults are applied by the caller). -/
structure StoredState where
  elements : Option (List Elem) := none
  zoom : Option ℚ := none
  pan : Option Pan := none
deriving DecidableEq, Repr

def optStrToJson : Option String → Json
  | none => Json.null
  | some s => Json.str s

def jsonToOptStr : Json → Option (Option String)
  | Json.null => some none
  | Json.str s => some (some s)
  | _ => none

def jsonToNum : Json → Option ℚ
  | Json.num q => some q
  | _ => none

def dataToJson (d : ElemData) : Json :=
  Json.obj [("id", optStrToJson d.id), ("label", optStrToJson d.label),
    ("description", optStrToJson d.description), ("notes", optStrToJson d.notes),
    ("color", optStrToJson d.color), ("source", optStrToJson d.source),
    ("target", optStrToJson d.target)]

def dataFromJson : Json → Option ElemData
  | Json.obj kvs => do
      let i ← (kvs.lookup "id").bind jsonToOptStr
      let l ← (kvs.lookup "label").bind jsonToOptStr
      let de ← (kvs.lookup "description").bind jsonToOptStr
      let n ← (kvs.lookup "notes").bind jsonToOptStr
      let co ← (kvs.lookup "color").bind jsonToOptStr
      let s ← (kvs.lookup "source").bind jsonToOptStr
      let t ← (kvs.lookup "target").bind jsonToOptStr
      pure ⟨i, l, de, n, co, s, t⟩
  | _ => none

def elemToJson (e : Elem) : Json :=
  Json.obj [("data", dataToJson e.data), ("classes", optStrToJson e.classes)]

def elemFromJson : Json → Option Elem
  | Json.obj kvs => do
      let dj ← kvs.lookup "data"
      let d ← dataFromJson dj
      let cl ← (kvs.lookup "classes").bind jsonToOptStr
      pure ⟨d, cl⟩
  | _ => none

def elemsFromJson : List Json → Option (List Elem)
  | [] => some []
  | j :: r =>
      match elemFromJson j, elemsFromJson r with
      | some e, some es => some (e :: es)
      | _, _ => none

def panToJson (p : Pan) : Json := Json.obj [("x", Json.num p.x), ("y", Json.num p.y)]

def panFromJson : Json → Option Pan
  | Json.obj kvs => do
      let x ← (kvs.lookup "x").bind jsonToNum
      let y ← (kvs.lookup "y").bind jsonToNum
      pure ⟨x, y⟩
  | _ => none

def stateToJson (s : Snapshot) : Json :=
  Json.obj [("elements", Json.arr (s.elements.map elemToJson)),
    ("zoom", Json.num s.zoom), ("pan", panToJson s.pan)]

/-- Lenient decoding of a stored state, mirroring the `state.get(...)`
accesses of the Load handler: a missing (or non-decodable) key is `none`. -/
def stateFromJson : Json → Option StoredState
  | Json.obj kvs => some
      { elements := (kvs.lookup "elements").bind (fun j =>
          match j with
          | Json.arr l => elemsFromJson l
          | _ => none),
        zoom := (kvs.lookup "zoom").bind jsonToNum,
        pan := (kvs.lookup "pan").bind panFromJson }
  | _ => none

/-- `save_graph_state`: in one transaction, delete every existing row and
insert the serialized state; returns the table rows after the commit.  (The
Python function returns `False` instead when SQLite fails; that failure is
an environment event outside the pure model, and the reducer model takes
the success bit as an input.) -/
def save_graph_state (state : Snapshot) (db : List Json) : List Json :=
  db.take 0 ++ [stateToJson state]

/-- `load_graph_state`: decode the row with the highest id (the most recent
insert), or `none` when the table is empty or the payload unreadable. -/
def load_graph_state (db : List Json) : Option StoredState :=
  db.getLast?.bind stateFromJson

theorem data_roundtrip (d : ElemData) : dataFromJson (dataToJson d) = some d := by
  rcases d with ⟨i, l, de, n, co, s, t⟩
  cases i <;> cases l <;> cases de <;> cases n <;> cases co <;> cases s <;> cases t <;> rfl

theorem elem_roundtrip (e : Elem) : elemFromJson (elemToJson e) = some e := by
  rcases e with ⟨⟨i, l, de, n, co, s, t⟩, cl⟩
  cases i <;> cases l <;> cases de <;> cases n <;> cases co <;> cases s <;> cases t <;>
    cases cl <;> rfl

theorem elems_roundtrip (l : List Elem) : elemsFromJson (l.map elemToJson) = some l := by
  induction l with
  | nil => rfl
  | cons e t ih => simp only [List.map_cons, elemsFromJson, elem_roundtrip e, ih]

theorem state_roundtrip (s : Snapshot) :
    stateFromJson (stateToJson s) = some ⟨some s.elements, some s.zoom, some s.pan⟩ := by
  rcases s with ⟨els, z, ⟨px, py⟩⟩
  simp only [stateFromJson, stateToJson, Option.some.injEq, StoredState.mk.injEq]
  refine ⟨?_, rfl, rfl⟩
  rw [show List.lookup "elements" [("elements", Json.arr (els.map elemToJson)),
      ("zoom", Json.num z), ("pan", panToJson ⟨px, py⟩)]
      = some (Json.arr (els.map elemToJson)) from rfl, Option.some_bind]
  exact elems_roundtrip els

/-- C8 — for every snapshot `{elements, zoom, pan}` and every prior store
contents, saving and then loading (with no other save in between) returns a
stored state whose elements, zoom, and pan are field-for-field the saved
ones. -/
theorem claim_C8 (s : Snapshot) (db : List Json) :
    load_graph_state (save_graph_state s db) =
      some ⟨some s.elements, some s.zoom, some s.pan⟩ := by
  unfold load_graph_state save_graph_state
  rw [List.take_zero, List.nil_append,
    show ([stateToJson s].getLast? : Option Json) = some (stateToJson s) from rfl,
    Option.some_bind, state_roundtrip]

/-! ## Python `str.split()` / `' '.join` -/

/-- Accumulator pass of Python's no-argument `str.split()`: whitespace runs
separate tokens, no empty tokens are produced.  `cur` holds the current
token's characters in reverse. -/
def pySplitGo : List Char → List Char → List String
  | [], cur => if cur = [] then [] else [String.mk cur.reverse]
  | c :: rest, cur =>
      if c.isWhitespace then
        if cur = [] then pySplitGo rest []
        else String.mk cur.reverse :: pySplitGo rest []
      else pySplitGo rest (c :: cur)

/-- Python `s.split()`. -/
def pySplit (s : String) : List String := pySplitGo s.data []

/-- Python `' '.join(l)`. -/
def joinSpace : List String → String
  | [] => ""
  | [s] => s
  | s :: rest => s ++ " " ++ joinSpace rest

/-- A well-formed token as produced by `split()`: nonempty, no whitespace. -/
def GoodTok (s : String) : Prop := s ≠ "" ∧ ∀ c ∈ s.data, c.isWhitespace = false

theorem pySplitGo_token (rest : List Char) :
    ∀ (t cur : List Char), (∀ c ∈ t, c.isWhitespace = false) →
      pySplitGo (t ++ rest) cur = pySplitGo rest (t.reverse ++ cur) := by
  intro t
  induction t with
  | nil => intro cur _; rfl
  | cons c t2 ih =>
      intro cur h
      show pySplitGo (c :: (t2 ++ rest)) cur = _
      rw [show pySplitGo (c :: (t2 ++ rest)) cur = pySplitGo (t2 ++ rest) (c :: cur) by
        simp only [pySplitGo, h c (by simp)]
        rw [if_neg (by simp)]]
      rw [ih (c :: cur) (fun x hx => h x (by simp [hx]))]
      simp

theorem good_data_ne {s : String} (h : s ≠ "") : s.data ≠ [] := by
  intro hd
  exact h (by rcases s with ⟨d⟩; cases hd; rfl)

theorem pySplit_joinSpace : ∀ l : List String, (∀ s ∈ l, GoodTok s) →
    pySplit (joinSpace l) = l := by
  intro l
  induction l with
  | nil => intro _; rfl
  | cons s rest ih =>
      intro h
      obtain ⟨hne, hok⟩ := h s (by simp)
      cases rest with
      | nil =>
          show pySplitGo (joinSpace [s]).data [] = [s]
          rw [show joinSpace [s] = s from rfl]
          rw [show s.data = s.data ++ [] from (List.append_nil _).symm, pySplitGo_token _ _ _ hok]
          rw [List.append_nil]
          simp only [pySplitGo]
          rw [if_neg (fun habs => good_data_ne hne (List.reverse_eq_nil_iff.mp habs))]
          rw [List.reverse_reverse, string_mk_data]
      | cons s2 rest2 =>
          show pySplitGo (joinSpace (s :: s2 :: rest2)).data [] = _
          rw [show joinSpace (s :: s2 :: rest2) = s ++ " " ++ joinSpace (s2 :: rest2) from rfl]
          rw [show (s ++ " " ++ joinSpace (s2 :: rest2)).data
              = s.data ++ (' ' :: (joinSpace (s2 :: rest2)).data) from by
            simp [String.data_append]]
          rw [pySplitGo_token _ _ _ hok]
          rw [List.append_nil]
          simp only [pySplitGo]
          rw [if_pos (show (' ').isWhitespace = true from by decide)]
          rw [if_neg (fun habs => good_data_ne hne (List.reverse_eq_nil_iff.mp habs))]
          rw [List.reverse_reverse, string_mk_data]
          rw [show pySplitGo (joinSpace (s2 :: rest2)).data [] = s2 :: rest2 from
            ih (fun x hx => h x (by simp [hx]))]

theorem pySplitGo_good : ∀ (l cur : List Char), (∀ c ∈ cur, c.isWhitespace = false) →
    ∀ s ∈ pySplitGo l cur, GoodTok s := by
  intro l
  induction l with
  | nil =>
      intro cur hcur s hs
      unfold pySplitGo at hs
      by_cases hc : cur = []
      · rw [if_pos hc] at hs; simp at hs
      · rw [if_neg hc] at hs
        simp at hs
        subst hs
        refine ⟨?_, ?_⟩
        · intro habs
          exact hc (by simpa using List.reverse_eq_nil_iff.mp (congrArg String.data habs))
        · intro c hcmem
          exact hcur c (by simpa using hcmem)
  | cons c rest ih =>
      intro cur hcur s hs
      unfold pySplitGo at hs
      by_cases hw : c.isWhitespace
      · rw [if_pos hw] at hs
        by_cases hc : cur = []
        · rw [if_pos hc] at hs
          exact ih [] (by simp) s hs
        · rw [if_neg hc] at hs
          rcases List.mem_cons.mp hs with rfl | hs
          · refine ⟨?_, ?_⟩
            · intro habs
              exact hc (by simpa using List.reverse_eq_nil_iff.mp (congrArg String.data habs))
            · intro x hxmem
              exact hcur x (by simpa using hxmem)
          · exact ih [] (by simp) s hs
      · rw [if_neg hw] at hs
        refine ih (c :: cur) ?_ s hs
        intro x hx
        rcases List.mem_cons.mp hx with rfl | hx
        · simpa using hw
        · exact hcur x hx

theorem pySplit_good (s : String) : ∀ t ∈ pySplit s, GoodTok t :=
  pySplitGo_good s.data [] (by simp)

theorem goodTok_erase {l : List String} (h : ∀ s ∈ l, GoodTok s) (x : String) :
    ∀ s ∈ l.erase x, GoodTok s := fun s hs => h s (List.mem_of_mem_erase hs)

/-! ## The interaction reducer `handle_interactions`
(src/callbacks.py, lines 53–341)

The reducer is a pure function of the callback inputs and states plus an
explicit environment carrying the snapshot-store responses.  Its result is
the returned output tuple, the framework no-op (`PreventUpdate`), or an
uncaught Python exception; the argument of the `save_graph_state` call a
dispatch makes (if any) is reported alongside. -/

inductive PyErr where
  | attributeError
  | keyError
deriving DecidableEq, Repr

/-- The `tapNodeData` payload: the tapped node's data dictionary.  A present
value models a truthy (nonempty) dictionary; `none` models both `None` and
the falsy empty dictionary, which the code treats alike. -/
structure Tapped where
  id : Option String := none
  label : Option String := none
  description : Option String := none
  notes : Option String := none
deriving DecidableEq, Repr

/-- The `node-info` panel content: either a plain message or the
`html.Div([H4 label, P description])` card built on a node tap. -/
inductive NodeInfo where
  | msg (s : String)
  | card (label description : String)
deriving DecidableEq, Repr

/-- A `{'display': ...}` style value. -/
inductive Style where
  | block
  | hidden
deriving DecidableEq, Repr

/-- The eleven outputs of the combined callback, in source order. -/
structure Outputs where
  elements : List Elem
  zoom : ℚ
  pan : Pan
  node_info : NodeInfo
  rendered_notes : String
  rendered_notes_style : Style
  node_notes_value : String
  notes_section_style : Style
  save_alert : Bool
  load_alert : Bool
  note_save_alert : Bool
deriving DecidableEq, Repr

inductive RRes where
  | preventUpdate
  | ok (o : Outputs)
  | exn (e : PyErr)
deriving DecidableEq, Repr

/-- The callback's inputs and states.  `triggered_id` is the component id
extracted from `ctx.triggered[0]['prop_id']`; an empty `ctx.triggered` is
modelled by a `triggered_id` matching no branch. -/
structure Inp where
  triggered_id : String
  zoom_in : Option Nat := none
  zoom_out : Option Nat := none
  reset_zoom : Option Nat := none
  load_clicks : Option Nat := none
  save_clicks : Option Nat := none
  save_note_clicks : Option Nat := none
  search_value : Option String := none
  tapped_node_data : Option Tapped := none
  current_elements : List Elem := []
  current_zoom : ℚ := 1
  current_pan : Pan := ⟨0, 0⟩
  note_value : Option String := none
  tapped_node_state : Option Tapped := none

/-- The snapshot-store responses for this dispatch: what `load_graph_state`
would return (a falsy loaded value — `None` or `{}` — is `none`), and
whether `save_graph_state` reports success. -/
structure Env where
  loadResult : Option StoredState := none
  saveResult : Bool := true

/-- Python truthiness of an `n_clicks` value. -/
def truthyN : Option Nat → Bool
  | none => false
  | some n => n != 0

/-- Python truthiness of an optional string. -/
def truthyS : Option String → Bool
  | none => false
  | some s => s != ""

/-- The default outputs the callback assembles before dispatching on the
trigger (`new_elements` is a deep copy of the current elements, so it is
the same value). -/
def defaults (inp : Inp) : Outputs :=
  { elements := inp.current_elements, zoom := inp.current_zoom, pan := inp.current_pan,
    node_info := NodeInfo.msg "Click on a node to see details.",
    rendered_notes := "", rendered_notes_style := Style.hidden,
    node_notes_value := "", notes_section_style := Style.hidden,
    save_alert := false, load_alert := false, note_save_alert := false }

/-- The zoom handler: adjust by ±0.2 (or reset to 1.0) when the matching
button has a truthy click count, then clamp to [0.5, 2.0]. -/
def zoomBranch (inp : Inp) : Outputs :=
  let adjusted :=
    if inp.triggered_id = "zoom-in" ∧ truthyN inp.zoom_in then inp.current_zoom + 1/5
    else if inp.triggered_id = "zoom-out" ∧ truthyN inp.zoom_out then inp.current_zoom - 1/5
    else if inp.triggered_id = "reset-zoom" ∧ truthyN inp.reset_zoom then 1
    else inp.current_zoom
  { defaults inp with zoom := max (1/2) (min adjusted 2) }

/-- The load handler.  On a truthy loaded state the elements/zoom/pan are
replaced wholesale (with defaults for missing keys) and the loaded alert
opens; a debug-logging loop then reads `elem['data']['id']` of every node
element, raising `KeyError` when a loaded node has no id. -/
def badNodeNoId (e : Elem) : Bool :=
  e.data.source == none && e.data.target == none && e.data.id == none

def loadBranch (inp : Inp) (env : Env) : RRes :=
  match env.loadResult with
  | some st =>
      let newElements := st.elements.getD inp.current_elements
      if newElements.any badNodeNoId
      then RRes.exn PyErr.keyError
      else RRes.ok { defaults inp with
        elements := newElements, zoom := st.zoom.getD 1, pan := st.pan.getD ⟨0, 0⟩,
        load_alert := true }
  | none => RRes.ok (defaults inp)

/-- The note-update loop of the SaveNote handler: the first element whose
`data.get('id')` equals the tapped id gets its `notes` overwritten. -/
def updateFirstNote : List Elem → Option String → Option String → List Elem
  | [], _, _ => []
  | e :: rest, nid, nv =>
      if e.data.id == nid then { e with data := { e.data with notes := nv } } :: rest
      else e :: updateFirstNote rest nid nv

/-- The SaveNote handler.  With a truthy tapped-node state it updates the
note, opens the note-saved alert, renders the note text (calling
`note_value.strip()` — an `AttributeError` when the note text is `None`),
and saves the updated state; otherwise it is a logged no-op. -/
def saveNoteBranch (inp : Inp) : RRes × Option Snapshot :=
  match inp.tapped_node_state with
  | some tapped =>
      let newElements := updateFirstNote inp.current_elements tapped.id inp.note_value
      (match inp.note_value with
       | none => (RRes.exn PyErr.attributeError, none)
       | some nv =>
          (RRes.ok { defaults inp with
              elements := newElements,
              note_save_alert := true,
              rendered_notes := nv,
              rendered_notes_style := if nv.trim != "" then Style.block else Style.hidden,
              node_notes_value := nv,
              notes_section_style := Style.block },
           some ⟨newElements, inp.current_zoom, inp.current_pan⟩))
  | none => (RRes.ok (defaults inp), none)

/-- First pass of the search handler: remove (the first occurrence of) the
`highlighted` class from every element that has a `classes` key. -/
def clearElem (e : Elem) : Elem :=
  match e.classes with
  | none => e
  | some cs => { e with classes := some (joinSpace ((pySplit cs).erase "highlighted")) }

/-- Second pass of the search handler: skip full edges (`source` and
`target` both present), add `highlighted` to elements whose label is among
the matching labels, remove it from the rest. -/
def applyHighlight (matching : List String) (e : Elem) : Elem :=
  if e.data.source != none && e.data.target != none then e
  else
    let label := e.data.label.getD ""
    let classes := pySplit (e.classes.getD "")
    if matching.contains label then
      if classes.contains "highlighted" then { e with classes := some (joinSpace classes) }
      else { e with classes := some (joinSpace (classes ++ ["highlighted"])) }
    else { e with classes := some (joinSpace (classes.erase "highlighted")) }

/-- The search handler (wrapped in `try`/`except` in the source; the only
statement that can raise is the label extraction `elem['data']['label']`,
a `KeyError` on a node element without a label, which the `except`
converts into an error message over the already-cleared elements). -/
def searchBranch (inp : Inp) : Outputs :=
  let cleared := inp.current_elements.map clearElem
  if truthyS inp.search_value = false then
    { defaults inp with
      elements := cleared,
      node_info := NodeInfo.msg "Search cleared. All nodes are visible." }
  else if inp.current_elements.any (fun e =>
      e.data.source == none && e.data.target == none && e.data.label == none) then
    { defaults inp with
      elements := cleared,
      node_info := NodeInfo.msg "An error occurred during the search." }
  else
    let all_labels := inp.current_elements.filterMap (fun e =>
      if e.data.source == none && e.data.target == none then e.data.label else none)
    let matching := perform_fuzzy_search (inp.search_value.getD "") all_labels
    if matching.isEmpty then
      { defaults inp with
        elements := cleared,
        node_info := NodeInfo.msg "No matching nodes found." }
    else
      { defaults inp with
        elements := cleared.map (applyHighlight matching),
        node_info := NodeInfo.msg "Matching nodes highlighted." }

/-- The node-tap handler: renders label/description/notes with defaults for
missing fields; mutates nothing. -/
def tapBranch (inp : Inp) : Outputs :=
  match inp.tapped_node_data with
  | some tapped =>
      let notes := tapped.notes.getD ""
      { defaults inp with
        node_info := NodeInfo.card (tapped.label.getD "No Label")
          (tapped.description.getD "No description available."),
        rendered_notes := notes,
        rendered_notes_style := if notes.trim != "" then Style.block else Style.hidden,
        node_notes_value := notes,
        notes_section_style := Style.block }
  | none => defaults inp

/-- `handle_interactions` from `src/callbacks.py`: the `if`/`elif` dispatch
on the triggering component, in source order; an unmatched trigger is the
framework no-op `PreventUpdate`. -/
def handle_interactions (inp : Inp) (env : Env) : RRes × Option Snapshot :=
  if inp.triggered_id = "zoom-in" ∨ inp.triggered_id = "zoom-out" ∨
      inp.triggered_id = "reset-zoom" then
    (RRes.ok (zoomBranch inp), none)
  else if inp.triggered_id = "load-state" ∧ truthyN inp.load_clicks then
    (loadBranch inp env, none)
  else if inp.triggered_id = "save-state" ∧ truthyN inp.save_clicks then
    (RRes.ok { defaults inp with save_alert := env.saveResult },
     some ⟨inp.current_elements, inp.current_zoom, inp.current_pan⟩)
  else if inp.triggered_id = "save-note" ∧ truthyN inp.save_note_clicks then
    saveNoteBranch inp
  else if inp.triggered_id = "node-search" then
    (RRes.ok (searchBranch inp), none)
  else if inp.triggered_id = "cytoscape-graph" then
    (RRes.ok (tapBranch inp), none)
  else
    (RRes.preventUpdate, none)

/-- Projections of a reducer result. -/
def isOk : RRes → Bool
  | RRes.ok _ => true
  | _ => false

def isExn : RRes → Bool
  | RRes.exn _ => true
  | _ => false

def rZoom : RRes → Option ℚ
  | RRes.ok o => some o.zoom
  | _ => none

def rElements : RRes → Option (List Elem)
  | RRes.ok o => some o.elements
  | _ => none

def rPan : RRes → Option Pan
  | RRes.ok o => some o.pan
  | _ => none

def rNoteAlert : RRes → Option Bool
  | RRes.ok o => some o.note_save_alert
  | _ => none

/-! ### C4 — zoom invariant -/

inductive ZoomTrigger where
  | zin
  | zout
  | reset
deriving DecidableEq, Repr

/-- The reducer input representing a zoom dispatch against zoom level `z`
(a clicked button has a truthy `n_clicks`). -/
def zoomDispatchInp (t : ZoomTrigger) (z : ℚ) : Inp :=
  match t with
  | ZoomTrigger.zin => { triggered_id := "zoom-in", zoom_in := some 1, current_zoom := z }
  | ZoomTrigger.zout => { triggered_id := "zoom-out", zoom_out := some 1, current_zoom := z }
  | ZoomTrigger.reset => { triggered_id := "reset-zoom", reset_zoom := some 1, current_zoom := z }

/-- The zoom level after dispatching one zoom trigger through the reducer. -/
def zoomStepFn (z : ℚ) (t : ZoomTrigger) : ℚ :=
  (rZoom (handle_interactions (zoomDispatchInp t z) {}).1).getD z

theorem zoomStepFn_bounds (z : ℚ) (t : ZoomTrigger) :
    1/2 ≤ zoomStepFn z t ∧ zoomStepFn z t ≤ 2 := by
  cases t <;>
    simp only [zoomStepFn, zoomDispatchInp, handle_interactions, zoomBranch, rZoom,
      truthyN, defaults] <;>
    norm_num

/-- C4 — a zoom dispatch with a truthy click count adjusts the zoom by
±0.2 (ZoomIn/ZoomOut) or sets it to 1.0 (ResetZoom), clamps it to
[0.5, 2.0], and leaves pan and elements (and every other output) at their
defaults; and over any finite sequence of zoom dispatches started in
[0.5, 2.0] the zoom stays in [0.5, 2.0]. -/
theorem claim_C4 :
    (∀ (inp : Inp) (env : Env), inp.triggered_id = "zoom-in" → truthyN inp.zoom_in = true →
      handle_interactions inp env =
        (RRes.ok { defaults inp with zoom := max (1/2) (min (inp.current_zoom + 1/5) 2) },
         none)) ∧
    (∀ (inp : Inp) (env : Env), inp.triggered_id = "zoom-out" → truthyN inp.zoom_out = true →
      handle_interactions inp env =
        (RRes.ok { defaults inp with zoom := max (1/2) (min (inp.current_zoom - 1/5) 2) },
         none)) ∧
    (∀ (inp : Inp) (env : Env), inp.triggered_id = "reset-zoom" → truthyN inp.reset_zoom = true →
      handle_interactions inp env = (RRes.ok { defaults inp with zoom := 1 }, none)) ∧
    (∀ z : ℚ, 1/2 ≤ z → z ≤ 2 → ∀ ts : List ZoomTrigger,
      1/2 ≤ ts.foldl zoomStepFn z ∧ ts.foldl zoomStepFn z ≤ 2) := by
  refine ⟨?_, ?_, ?_, ?_⟩
  · intro inp env ht hc
    simp [handle_interactions, zoomBranch, ht, hc]
  · intro inp env ht hc
    simp [handle_interactions, zoomBranch, ht, hc]
  · intro inp env ht hc
    simp [handle_interactions, zoomBranch, ht, hc]
    norm_num
  · intro z h1 h2 ts
    induction ts generalizing z with
    | nil => exact ⟨h1, h2⟩
    | cons t rest ih =>
        simp only [List.foldl_cons]
        exact ih _ (zoomStepFn_bounds z t).1 (zoomStepFn_bounds z t).2

/-- C4 — witness: a ZoomIn dispatch at zoom 1.9 clamps to 2.0, and a
concrete zoom sequence from 1.0 stays in range. -/
theorem claim_C4_witness :
    (handle_interactions (zoomDispatchInp ZoomTrigger.zin (19/10)) {} =
      (RRes.ok { defaults (zoomDispatchInp ZoomTrigger.zin (19/10)) with
        zoom := max (1/2) (min ((19:ℚ)/10 + 1/5) 2) }, none)) ∧
    (1/2 ≤ [ZoomTrigger.zin, ZoomTrigger.zin,
        ZoomTrigger.reset].foldl zoomStepFn 1 ∧
      [ZoomTrigger.zin, ZoomTrigger.zin, ZoomTrigger.reset].foldl zoomStepFn 1 ≤ 2) :=
  ⟨claim_C4.1 (zoomDispatchInp ZoomTrigger.zin (19/10)) {} rfl rfl,
   claim_C4.2.2.2 1 (by norm_num) (by norm_num) _⟩

/-! ### C9 / C10 — SaveNote -/

theorem updateFirstNote_not_found {l : List Elem} {nid : Option String} {nv : Option String}
    (h : ∀ e ∈ l, (e.data.id == nid) = false) : updateFirstNote l nid nv = l := by
  induction l with
  | nil => rfl
  | cons e rest ih =>
      unfold updateFirstNote
      rw [h e (by simp), ih (fun x hx => h x (by simp [hx]))]
      simp

/-- C9 — a SaveNote dispatch with no active selection (falsy tapped-node
state) is a logged no-op: the reducer returns normally with all outputs at
their defaults, the elements equal the current elements, no
`save_graph_state` call is made, and the note-saved alert stays closed. -/
theorem claim_C9 (inp : Inp) (env : Env)
    (ht : inp.triggered_id = "save-note") (hc : truthyN inp.save_note_clicks = true)
    (hsel : inp.tapped_node_state = none) :
    handle_interactions inp env = (RRes.ok (defaults inp), none) ∧
      rElements (handle_interactions inp env).1 = some inp.current_elements ∧
      rNoteAlert (handle_interactions inp env).1 = some false ∧
      (handle_interactions inp env).2 = none := by
  have hmain : handle_interactions inp env = (RRes.ok (defaults inp), none) := by
    simp [handle_interactions, saveNoteBranch, ht, hc, hsel]
  exact ⟨hmain, by rw [hmain]; rfl, by rw [hmain]; rfl, by rw [hmain]⟩

/-- C9 — witness: `SaveNote("hello")` with no prior selection against a
one-node document leaves it untouched and calls no save. -/
theorem claim_C9_witness :
    handle_interactions
        { triggered_id := "save-note", save_note_clicks := some 1,
          note_value := some "hello",
          current_elements := [{ data := { id := some "n" } }] } {} =
      (RRes.ok (defaults
        { triggered_id := "save-note", save_note_clicks := some 1,
          note_value := some "hello",
          current_elements := [{ data := { id := some "n" } }] }), none) := by
  refine (claim_C9 _ {} ?_ ?_ ?_).1 <;> rfl

/-- C10 — counterexample.  The claim quantifies over *every* SaveNote
dispatch with an active selection, but when the note text is absent
(`None`) the handler raises at `note_value.strip()` *before* the alert is
returned and *before* the `save_graph_state` call: no note-saved directive
is emitted and no persistence save is attempted. -/
theorem claim_C10_counterexample :
    rNoteAlert (handle_interactions
        { triggered_id := "save-note", save_note_clicks := some 1,
          tapped_node_state := some { id := some "n" },
          current_elements := [{ data := { id := some "n" } }] } {}).1 = none ∧
      (handle_interactions
        { triggered_id := "save-note", save_note_clicks := some 1,
          tapped_node_state := some { id := some "n" },
          current_elements := [{ data := { id := some "n" } }] } {}).2 = none ∧
      (handle_interactions
        { triggered_id := "save-note", save_note_clicks := some 1,
          tapped_node_state := some { id := some "n" },
          current_elements := [{ data := { id := some "n" } }] } {}).1 =
        RRes.exn PyErr.attributeError :=
  ⟨rfl, rfl, rfl⟩

/-- C10 (amended) — a SaveNote dispatch with an active selection and a
*string* note text always opens the note-saved alert and calls
`save_graph_state` on the resulting document (current zoom/pan, elements
after the first-match note update), whatever the save's success bit; when
the selected id matches no element, no element is updated and the saved
elements equal the current ones.  (With an absent/None note text the
handler instead raises before emitting the directive or attempting the
save — the counterexample above.) -/
theorem claim_C10 (inp : Inp) (env : Env) (t : Tapped) (nv : String)
    (ht : inp.triggered_id = "save-note") (hc : truthyN inp.save_note_clicks = true)
    (hsel : inp.tapped_node_state = some t) (hnote : inp.note_value = some nv) :
    isOk (handle_interactions inp env).1 = true ∧
      rNoteAlert (handle_interactions inp env).1 = some true ∧
      (handle_interactions inp env).2 =
        some ⟨updateFirstNote inp.current_elements t.id (some nv),
          inp.current_zoom, inp.current_pan⟩ ∧
      ((∀ e ∈ inp.current_elements, (e.data.id == t.id) = false) →
        rElements (handle_interactions inp env).1 = some inp.current_elements ∧
        (handle_interactions inp env).2 =
          some ⟨inp.current_elements, inp.current_zoom, inp.current_pan⟩) := by
  have hmain : handle_interactions inp env =
      (RRes.ok { defaults inp with
          elements := updateFirstNote inp.current_elements t.id (some nv),
          note_save_alert := true,
          rendered_notes := nv,
          rendered_notes_style := if nv.trim != "" then Style.block else Style.hidden,
          node_notes_value := nv,
          notes_section_style := Style.block },
        some ⟨updateFirstNote inp.current_elements t.id (some nv),
          inp.current_zoom, inp.current_pan⟩) := by
    simp [handle_interactions, saveNoteBranch, ht, hc, hsel, hnote]
  refine ⟨by rw [hmain]; rfl, by rw [hmain]; rfl, by rw [hmain], fun hnf => ?_⟩
  rw [hmain]
  rw [show updateFirstNote inp.current_elements t.id (some nv) = inp.current_elements from
    updateFirstNote_not_found hnf]
  exact ⟨rfl, rfl⟩

/-- C10 — witness: saving note `"x"` with a selection whose id `"ghost"`
matches no element still opens the alert and saves the unchanged
document. -/
theorem claim_C10_witness :
    rNoteAlert (handle_interactions
        { triggered_id := "save-note", save_note_clicks := some 1,
          note_value := some "x",
          tapped_node_state := some { id := some "ghost" },
          current_elements := [{ data := { id := some "n" } }] } {}).1 = some true ∧
      (handle_interactions
        { triggered_id := "save-note", save_note_clicks := some 1,
          note_value := some "x",
          tapped_node_state := some { id := some "ghost" },
          current_elements := [{ data := { id := some "n" } }] } {}).2 =
        some ⟨[{ data := { id := some "n" } }], 1, ⟨0, 0⟩⟩ := by
  constructor
  · refine (claim_C10 _ {} { id := some "ghost" } "x" ?_ ?_ ?_ ?_).2.1 <;> rfl
  · refine ((claim_C10 _ {} { id := some "ghost" } "x" ?_ ?_ ?_ ?_).2.2.2 ?_).2 <;>
      first | rfl | decide

/-! ### C1 — exception propagation at the reducer boundary -/

/-- C1 — counterexample.  A SaveNote dispatch with an active selection and
an absent (`None`) note text reaches `note_value.strip()` in the handler,
which has no `try`/`except`: the `AttributeError` propagates past the
reducer boundary, contradicting the claim that no input shape raises. -/
theorem claim_C1_counterexample :
    (handle_interactions
      { triggered_id := "save-note", save_note_clicks := some 1,
        tapped_node_state := some { id := some "A" } } {}).1 =
      RRes.exn PyErr.attributeError := rfl

/-- C1 (amended) — over all modelled input shapes, the reducer returns
normally (or signals the framework no-op) in every case *except* exactly
two: (i) a SaveNote dispatch with an active selection and an absent note
text (uncaught `AttributeError` from `None.strip()`), and (ii) a Load
dispatch whose loaded snapshot contains a node element without an id
(uncaught `KeyError` from the debug-logging loop).  In particular the
search and node-tap handlers, which do carry `try`/`except`, never
raise. -/
theorem claim_C1 (inp : Inp) (env : Env) :
    isExn (handle_interactions inp env).1 = true ↔
      ((inp.triggered_id = "save-note" ∧ truthyN inp.save_note_clicks = true ∧
          inp.tapped_node_state.isSome = true ∧ inp.note_value = none) ∨
        (inp.triggered_id = "load-state" ∧ truthyN inp.load_clicks = true ∧
          ∃ st, env.loadResult = some st ∧
            (st.elements.getD inp.current_elements).any badNodeNoId = true)) := by
  unfold handle_interactions
  by_cases h1 : inp.triggered_id = "zoom-in" ∨ inp.triggered_id = "zoom-out" ∨
      inp.triggered_id = "reset-zoom"
  · rw [if_pos h1]
    rcases h1 with h | h | h <;> simp [isExn, h]
  rw [if_neg h1]
  by_cases h2 : inp.triggered_id = "load-state" ∧ truthyN inp.load_clicks = true
  · rw [if_pos h2]
    obtain ⟨ht, hc⟩ := h2
    simp only [loadBranch]
    cases hl : env.loadResult with
    | none => simp [isExn, ht, hc]
    | some st =>
        by_cases hb : (st.elements.getD inp.current_elements).any badNodeNoId = true
        · simp only [hb, if_true, isExn]
          simp [ht, hc]
          exact List.any_eq_true.mp hb
        · simp only [hb, if_false, Bool.false_eq_true, if_neg, isExn]
          refine ⟨fun h => h.elim, ?_⟩
          rintro (⟨ht2, -⟩ | ⟨-, -, st2, hst2, hb2⟩)
          · rw [ht] at ht2
            exact absurd ht2 (by decide)
          · injection hst2 with he
            subst he
            exact hb hb2
  rw [if_neg h2]
  by_cases h3 : inp.triggered_id = "save-state" ∧ truthyN inp.save_clicks = true
  · rw [if_pos h3]
    obtain ⟨ht, -⟩ := h3
    simp [isExn, ht]
  rw [if_neg h3]
  by_cases h4 : inp.triggered_id = "save-note" ∧ truthyN inp.save_note_clicks = true
  · rw [if_pos h4]
    obtain ⟨ht, hc⟩ := h4
    simp only [saveNoteBranch]
    cases hts : inp.tapped_node_state with
    | none => simp [isExn, ht, hc, hts]
    | some t =>
        cases hnv : inp.note_value with
        | none => simp [isExn, ht, hc, hts, hnv]
        | some nv => simp [isExn, ht, hc, hts, hnv]
  rw [if_neg h4]
  by_cases h5 : inp.triggered_id = "node-search"
  · rw [if_pos h5]
    simp only [isExn]
    constructor
    · intro habs; cases habs
    · rintro (⟨ht, -⟩ | ⟨ht, -⟩) <;> rw [h5] at ht <;> exact absurd ht (by decide)
  rw [if_neg h5]
  by_cases h6 : inp.triggered_id = "cytoscape-graph"
  · rw [if_pos h6]
    simp only [isExn]
    constructor
    · intro habs; cases habs
    · rintro (⟨ht, -⟩ | ⟨ht, -⟩) <;> rw [h6] at ht <;> exact absurd ht (by decide)
  · rw [if_neg h6]
    simp only [isExn]
    constructor
    · intro habs; cases habs
    · rintro (⟨ht, hc, -, -⟩ | ⟨ht, hc, -⟩)
      · exact (h4 ⟨ht, hc⟩).elim
      · exact (h2 ⟨ht, hc⟩).elim

/-- C1 — witness for the amended theorem: a well-formed search dispatch
does not raise (its exception characterization is the `False` case). -/
theorem claim_C1_witness :
    isExn (handle_interactions
        { triggered_id := "node-search", search_value := some "x",
          current_elements := [{ data := { id := some "n", label := some "a" } }] } {}).1
      = true ↔
      ((("node-search" : String) = "save-note" ∧ truthyN (none : Option Nat) = true ∧
          Option.isSome (none : Option Tapped) = true ∧ (none : Option String) = none) ∨
        (("node-search" : String) = "load-state" ∧ truthyN (none : Option Nat) = true ∧
          ∃ st, (none : Option StoredState) = some st ∧
            (st.elements.getD [{ data := { id := some "n", label := some "a" } }]).any
              badNodeNoId = true)) :=
  claim_C1
    { triggered_id := "node-search", search_value := some "x",
      current_elements := [{ data := { id := some "n", label := some "a" } }] } {}

/-! ### C7 — SearchChanged highlighting -/

/-- The class tokens an element carries (`classes.split()` on the element's
class string, empty when the key is absent). -/
def classTokens (e : Elem) : List String := pySplit (e.classes.getD "")

/-- Carrying the `highlighted` marker. -/
def Highlighted (e : Elem) : Prop := "highlighted" ∈ classTokens e

/-- A well-formed element of the data model: a node (no endpoints, labelled)
or an edge (both endpoints). -/
def WfElem (e : Elem) : Prop :=
  (e.data.source = none ∧ e.data.target = none ∧ e.data.label ≠ none) ∨
    (e.data.source ≠ none ∧ e.data.target ≠ none)

/-- The specification's highlight condition for an element under a query:
the query is truthy and the element is a node whose pre-trigger label is a
case-insensitive substring match for it. -/
def Marked (q : Option String) (e : Elem) : Prop :=
  truthyS q = true ∧ e.data.source = none ∧ e.data.target = none ∧
    pyInStr (pyLower (q.getD "")) (pyLower (e.data.label.getD "")) = true

instance (q : Option String) (e : Elem) : Decidable (Marked q e) := by
  unfold Marked; infer_instance

theorem forall2_map_self {α β : Type} (P : α → β → Prop) (f : α → β) :
    ∀ l : List α, (∀ e ∈ l, P e (f e)) → List.Forall₂ P l (l.map f) := by
  intro l
  induction l with
  | nil => intro _; constructor
  | cons a t ih =>
      intro h
      exact List.Forall₂.cons (h a (by simp)) (ih (fun e he => h e (by simp [he])))

theorem highlighted_not_mem_erase {l : List String} (h : l.count "highlighted" ≤ 1) :
    "highlighted" ∉ l.erase "highlighted" := by
  intro hm
  have h2 := List.count_erase_self "highlighted" l
  have h3 := List.count_pos_iff.mpr hm
  omega

theorem clearElem_data (e : Elem) : (clearElem e).data = e.data := by
  unfold clearElem
  cases e.classes <;> rfl

theorem clearElem_tokens (e : Elem) :
    classTokens (clearElem e) = (classTokens e).erase "highlighted" := by
  unfold clearElem
  cases hc : e.classes with
  | none =>
      show classTokens e = _
      unfold classTokens
      rw [hc]
      rfl
  | some cs =>
      show classTokens { e with classes := some (joinSpace ((pySplit cs).erase "highlighted")) }
        = _
      unfold classTokens
      rw [hc]
      show pySplit (joinSpace ((pySplit cs).erase "highlighted")) = _
      exact pySplit_joinSpace _ (goodTok_erase (pySplit_good cs) _)

theorem bne_none_of_ne {o : Option String} (h : o ≠ none) : (o != none) = true := by
  cases o with
  | none => exact absurd rfl h
  | some s => rfl

theorem highlight_edge_case (m : List String) (e : Elem)
    (h1 : e.data.source ≠ none) (h2 : e.data.target ≠ none) :
    applyHighlight m (clearElem e) = clearElem e := by
  unfold applyHighlight
  rw [if_pos]
  rw [clearElem_data, bne_none_of_ne h1, bne_none_of_ne h2]
  rfl

theorem goodTok_highlighted : GoodTok "highlighted" := by
  constructor
  · decide
  · decide

theorem highlight_node_case (m : List String) (e : Elem)
    (h1 : e.data.source = none) (h2 : e.data.target = none)
    (hdup : (classTokens e).count "highlighted" ≤ 1) :
    (applyHighlight m (clearElem e)).data = e.data ∧
      classTokens (applyHighlight m (clearElem e)) =
        (classTokens e).erase "highlighted" ++
          (if m.contains (e.data.label.getD "") = true then ["highlighted"] else []) ∧
      ("highlighted" ∈ classTokens (applyHighlight m (clearElem e)) ↔
        m.contains (e.data.label.getD "") = true) := by
  have hT : classTokens (clearElem e) = (classTokens e).erase "highlighted" :=
    clearElem_tokens e
  have hTgood : ∀ t ∈ (classTokens e).erase "highlighted", GoodTok t :=
    goodTok_erase (pySplit_good _) _
  have hnm : "highlighted" ∉ (classTokens e).erase "highlighted" :=
    highlighted_not_mem_erase hdup
  unfold applyHighlight
  rw [if_neg (by
    rw [clearElem_data, h1, h2]
    simp)]
  rw [show (clearElem e).data.label = e.data.label from by rw [clearElem_data]]
  rw [show pySplit ((clearElem e).classes.getD "") = (classTokens e).erase "highlighted" from hT]
  by_cases hm : m.contains (e.data.label.getD "") = true
  · rw [if_pos hm]
    rw [if_neg (by
      intro hcont
      exact hnm (List.elem_iff.mp hcont))]
    refine ⟨clearElem_data e, ?_, ?_⟩
    · show classTokens { clearElem e with
          classes := some (joinSpace ((classTokens e).erase "highlighted" ++ ["highlighted"])) }
        = _
      unfold classTokens
      show pySplit (joinSpace ((classTokens e).erase "highlighted" ++ ["highlighted"])) = _
      rw [pySplit_joinSpace _ (by
        intro t htmem
        rcases List.mem_append.mp htmem with htmem | htmem
        · exact hTgood t htmem
        · simp at htmem
          subst htmem
          exact goodTok_highlighted)]
      rw [if_pos hm]
      rfl
    · constructor
      · intro _; exact hm
      · intro _
        show "highlighted" ∈ classTokens { clearElem e with
          classes := some (joinSpace ((classTokens e).erase "highlighted" ++ ["highlighted"])) }
        unfold classTokens
        show "highlighted" ∈ pySplit (joinSpace ((classTokens e).erase "highlighted"
          ++ ["highlighted"]))
        rw [pySplit_joinSpace _ (by
          intro t htmem
          rcases List.mem_append.mp htmem with htmem | htmem
          · exact hTgood t htmem
          · simp at htmem
            subst htmem
            exact goodTok_highlighted)]
        simp
  · rw [if_neg hm]
    have herase : ((classTokens e).erase "highlighted").erase "highlighted"
        = (classTokens e).erase "highlighted" := List.erase_of_not_mem hnm
    refine ⟨clearElem_data e, ?_, ?_⟩
    · show classTokens { clearElem e with
          classes := some (joinSpace (((classTokens e).erase "highlighted").erase "highlighted")) }
        = _
      unfold classTokens
      show pySplit (joinSpace (((classTokens e).erase "highlighted").erase "highlighted")) = _
      rw [herase, pySplit_joinSpace _ hTgood, if_neg hm, List.append_nil]
      rfl
    · constructor
      · intro hmem
        exfalso
        revert hmem
        show "highlighted" ∉ classTokens { clearElem e with
          classes := some (joinSpace (((classTokens e).erase "highlighted").erase "highlighted")) }
        unfold classTokens
        show "highlighted" ∉ pySplit (joinSpace (((classTokens e).erase "highlighted").erase
          "highlighted"))
        rw [herase, pySplit_joinSpace _ hTgood]
        exact hnm
      · intro habs
        exact absurd habs hm

theorem clear_case (q : Option String) (e : Elem)
    (hdup : (classTokens e).count "highlighted" ≤ 1)
    (hnm : ¬ Marked q e) :
    (clearElem e).data = e.data ∧
      (Highlighted (clearElem e) ↔ Marked q e) ∧
      classTokens (clearElem e) = (classTokens e).erase "highlighted" ++
        (if Marked q e then ["highlighted"] else []) := by
  refine ⟨clearElem_data e, ?_, ?_⟩
  · constructor
    · intro hmem
      exfalso
      apply highlighted_not_mem_erase hdup
      rw [← clearElem_tokens e]
      exact hmem
    · intro hm
      exact absurd hm hnm
  · rw [clearElem_tokens, if_neg hnm, List.append_nil]

theorem searchBranch_zoom (inp : Inp) : (searchBranch inp).zoom = inp.current_zoom := by
  unfold searchBranch
  dsimp only
  split_ifs <;> rfl

theorem searchBranch_pan (inp : Inp) : (searchBranch inp).pan = inp.current_pan := by
  unfold searchBranch
  dsimp only
  split_ifs <;> rfl

instance (e : Elem) : Decidable (WfElem e) := by
  unfold WfElem; infer_instance

instance (e : Elem) : Decidable (Highlighted e) := by
  unfold Highlighted; infer_instance

/-- A node whose class string lists the `highlighted` marker twice. -/
def dupMarkedNode : Elem :=
  { data := { id := some "n", label := some "a" }, classes := some "highlighted highlighted" }

/-- The same node after the clearing pass removed one marker occurrence. -/
def dupMarkedNodeAfter : Elem :=
  { data := { id := some "n", label := some "a" }, classes := some "highlighted" }

/-- C7 — counterexample.  The claim asserts, for *every* element list, that
an empty query leaves no element highlighted; but the clearing loop removes
only the first occurrence of the marker (`classes.remove('highlighted')`),
so a node whose class string lists `highlighted` twice still carries the
marker after an empty-query SearchChanged dispatch. -/
theorem claim_C7_counterexample :
    rElements (handle_interactions
        { triggered_id := "node-search", search_value := some "",
          current_elements := [dupMarkedNode] } {}).1 = some [dupMarkedNodeAfter] ∧
      Highlighted dupMarkedNodeAfter := by
  constructor
  · rfl
  · decide

/-- C7 (amended) — for every element list whose elements are well-formed
(nodes carry a label and no endpoints; edges carry both endpoints) and
whose class strings list the `highlighted` marker at most once, and for
every query: a SearchChanged dispatch returns normally with zoom and pan
unchanged, and element-wise (in order) the new element keeps its data
fields, carries the `highlighted` marker iff the query is truthy and the
element is a node whose pre-trigger label is a case-insensitive substring
match for it (edges never carry it), and its class tokens are exactly the
old tokens minus the marker, plus the marker appended when matched. -/
theorem claim_C7 (inp : Inp) (env : Env)
    (ht : inp.triggered_id = "node-search")
    (hwf : ∀ e ∈ inp.current_elements, WfElem e)
    (hdup : ∀ e ∈ inp.current_elements, (classTokens e).count "highlighted" ≤ 1) :
    handle_interactions inp env = (RRes.ok (searchBranch inp), none) ∧
      (searchBranch inp).zoom = inp.current_zoom ∧
      (searchBranch inp).pan = inp.current_pan ∧
      List.Forall₂ (fun orig new =>
          new.data = orig.data ∧
          (Highlighted new ↔ Marked inp.search_value orig) ∧
          classTokens new = (classTokens orig).erase "highlighted" ++
            (if Marked inp.search_value orig then ["highlighted"] else []))
        inp.current_elements (searchBranch inp).elements := by
  have hdisp : handle_interactions inp env = (RRes.ok (searchBranch inp), none) := by
    unfold handle_interactions
    rw [if_neg (fun h => by
        rcases h with h | h | h <;> exact absurd (ht.symm.trans h) (by decide)),
      if_neg (fun h => absurd (ht.symm.trans h.1) (by decide)),
      if_neg (fun h => absurd (ht.symm.trans h.1) (by decide)),
      if_neg (fun h => absurd (ht.symm.trans h.1) (by decide)),
      if_pos ht]
  refine ⟨hdisp, searchBranch_zoom inp, searchBranch_pan inp, ?_⟩
  unfold searchBranch
  dsimp only
  by_cases hq : truthyS inp.search_value = false
  · rw [if_pos hq]
    refine forall2_map_self _ _ _ ?_
    intro e he
    exact clear_case inp.search_value e (hdup e he)
      (fun hm => absurd (hm.1.symm.trans hq) (by decide))
  · rw [if_neg hq]
    have hq2 : truthyS inp.search_value = true := by
      cases hb : truthyS inp.search_value with
      | false => exact absurd hb hq
      | true => rfl
    obtain ⟨s, hs, hsne⟩ : ∃ s, inp.search_value = some s ∧ s ≠ "" := by
      cases hv : inp.search_value with
      | none => rw [hv] at hq2; exact absurd hq2 (by decide)
      | some s =>
          refine ⟨s, rfl, ?_⟩
          rw [hv] at hq2
          simpa [truthyS] using hq2
    have herr : (inp.current_elements.any fun e =>
        e.data.source == none && e.data.target == none && e.data.label == none) = false := by
      rw [List.any_eq_false]
      intro e he
      rcases hwf e he with ⟨-, -, h3⟩ | ⟨h1, -⟩
      · cases hl : e.data.label with
        | none => exact absurd hl h3
        | some v => simp [hl]
      · cases hsv : e.data.source with
        | none => exact absurd hsv h1
        | some v => simp [hsv]
    rw [if_neg (show ¬ (inp.current_elements.any fun e =>
        e.data.source == none && e.data.target == none && e.data.label == none) = true by
      rw [herr]; decide)]
    have hmatch : ∀ e ∈ inp.current_elements, e.data.source = none → e.data.target = none →
        e.data.label ≠ none →
        ((perform_fuzzy_search (inp.search_value.getD "")
            (inp.current_elements.filterMap (fun x =>
              if x.data.source == none && x.data.target == none then x.data.label
              else none))).contains (e.data.label.getD "") = true ↔
          Marked inp.search_value e) := by
      intro e he h1 h2 h3
      have hqs : inp.search_value.getD "" = s := by rw [hs]; rfl
      rw [hqs]
      unfold perform_fuzzy_search
      rw [if_neg hsne]
      constructor
      · intro hcont
        have hmem := List.elem_iff.mp hcont
        have hfil := List.mem_filter.mp hmem
        refine ⟨hq2, h1, h2, ?_⟩
        rw [hqs]
        exact hfil.2
      · rintro ⟨-, -, -, hp⟩
        apply List.elem_iff.mpr
        apply List.mem_filter.mpr
        constructor
        · apply List.mem_filterMap.mpr
          refine ⟨e, he, ?_⟩
          rw [if_pos (by rw [h1, h2]; rfl)]
          cases hl : e.data.label with
          | none => exact absurd hl h3
          | some v => rfl
        · rw [hqs] at hp
          exact hp
    by_cases hme : (perform_fuzzy_search (inp.search_value.getD "")
        (inp.current_elements.filterMap (fun x =>
          if x.data.source == none && x.data.target == none then x.data.label
          else none))).isEmpty = true
    · rw [if_pos hme]
      refine forall2_map_self _ _ _ ?_
      intro e he
      refine clear_case inp.search_value e (hdup e he) ?_
      intro hm
      rcases hwf e he with ⟨h1, h2, h3⟩ | ⟨h1, -⟩
      · have hcont := (hmatch e he h1 h2 h3).mpr hm
        rw [List.isEmpty_iff.mp hme] at hcont
        simp [List.elem_iff] at hcont
      · exact h1 hm.2.1
    · rw [if_neg hme]
      rw [List.map_map]
      refine forall2_map_self _ _ _ ?_
      intro e he
      simp only [Function.comp_apply]
      rcases hwf e he with ⟨h1, h2, h3⟩ | ⟨h1, h2⟩
      · have hkey := hmatch e he h1 h2 h3
        have hnode := highlight_node_case
          (perform_fuzzy_search (inp.search_value.getD "")
            (inp.current_elements.filterMap (fun x =>
              if x.data.source == none && x.data.target == none then x.data.label
              else none))) e h1 h2 (hdup e he)
        refine ⟨hnode.1, hnode.2.2.trans hkey, ?_⟩
        rw [hnode.2.1]
        congr 1
        exact if_congr hkey rfl rfl
      · rw [highlight_edge_case
          (perform_fuzzy_search (inp.search_value.getD "")
            (inp.current_elements.filterMap (fun x =>
              if x.data.source == none && x.data.target == none then x.data.label
              else none))) e h1 h2]
        exact clear_case inp.search_value e (hdup e he) (fun hm => h1 hm.2.1)

/-- The concrete elements for the C7 witness: a previously highlighted node
`Virtual Machines`, a node `App Services`, and an edge between them. -/
def vmNode : Elem :=
  { data := { id := some "vm", label := some "Virtual Machines" }, classes := some "subnode highlighted" }

def asNode : Elem :=
  { data := { id := some "as", label := some "App Services" }, classes := some "subnode" }

def vmEdge : Elem :=
  { data := { id := some "e1", source := some "vm", target := some "as" } }

def searchWitnessInp : Inp :=
  { triggered_id := "node-search", search_value := some "mach",
    current_elements := [vmNode, asNode, vmEdge] }

/-- C7 — witness at a concrete document: query `"mach"` over the three
elements above re-highlights exactly the matching node (here the resulting
class strings coincide with the originals) and leaves the edge and all data
untouched. -/
theorem claim_C7_witness :
    handle_interactions searchWitnessInp {} =
      (RRes.ok (searchBranch searchWitnessInp), none) ∧
      rElements (handle_interactions searchWitnessInp {}).1 =
        some [vmNode, asNode, vmEdge] := by
  constructor
  · refine (claim_C7 searchWitnessInp {} ?_ ?_ ?_).1
    · rfl
    · decide
    · decide
  · rfl

end AzureMap
